/-
  Verification of the Prios productivity-scoring engine.

  Shallow embedding of the scoring modules found in the repository:
  * `Robust`  — robust-productivity-scoring.js (weight normalization, CUSUM-EWMA)
  * `Viz`     — productivity-viz.js shares the identical cusumEwmaAnomalies code
  * `Rhythm`  — rhythm-analyzer.js (RhythmAnalyzer class)
  * `TaskManager` — task-manager.js (Task component scorers, daily aggregator)
  * `Park`    — park/migration-rhythm.js (migration Task class)
  * `P3`      — the unnamed core-utilities module (clamp, computeComponents)

  JS numbers are modelled as rationals (ℚ) where the code performs only
  field operations and comparisons, and as reals (ℝ) where it calls
  Math.exp / Math.log / Math.sqrt / trigonometry.  A JS NaN produced by an
  out-of-enumeration object lookup is modelled by `Option` (`none` = NaN).
-/
import Mathlib

namespace Robust

/-- Weight map of the `RobustProductivityScoring` class: the five fixed keys
`effort, duration, quality, goals, rhythm` (iteration order of `for key in
this.weights` is this insertion order). -/
structure Weights where
  effort : ℚ
  duration : ℚ
  quality : ℚ
  goals : ℚ
  rhythm : ℚ
deriving DecidableEq

/-- The `minWeight` floor `ℓ = 0.05` of the robust scorer. -/
def minWeight : ℚ := 5 / 100

/-- First phase of `RobustProductivityScoring.normalizeWeights`: apply the
floor constraint `w[key] = max(minWeight, w[key])` to every entry. -/
def floorWeights (w : Weights) : Weights :=
  ⟨max minWeight w.effort, max minWeight w.duration, max minWeight w.quality,
   max minWeight w.goals, max minWeight w.rhythm⟩

/-- Sum of the five entries (the `reduce((a, b) => a + b, 0)` over values). -/
def weightSum (w : Weights) : ℚ :=
  w.effort + w.duration + w.quality + w.goals + w.rhythm

/-- `RobustProductivityScoring.normalizeWeights`: floor every entry at
`minWeight`, then divide every entry by the floored sum. -/
def normalizeWeights (w : Weights) : Weights :=
  let f := floorWeights w
  let s := weightSum f
  ⟨f.effort / s, f.duration / s, f.quality / s, f.goals / s, f.rhythm / s⟩

/-- Constructor defaults of the robust scorer's weight vector. -/
def defaultWeights : Weights := ⟨20/100, 20/100, 25/100, 20/100, 15/100⟩

/-- One tracked index of the CUSUM-EWMA loop: index `t`, the stored
accumulator values `pos[t]`, `neg[t]` after the iteration (the source resets
both arrays to 0 at a flagged index), and whether `t` was flagged. -/
structure CusumEntry where
  idx : ℕ
  pos : ℚ
  neg : ℚ
  flagged : Bool
deriving DecidableEq

/-- Body of the `for(let t=1;t<n;t++)` loop of `cusumEwmaAnomalies`, carrying
the previous EWMA value and both accumulators (λ = 0.2, k = 0.5). -/
def cusumGo (med h : ℚ) : ℚ → ℚ → ℚ → ℕ → List ℚ → List CusumEntry
  | _, _, _, _, [] => []
  | ew, pos, neg, t, v :: rest =>
    let e := 1/5 * v + 4/5 * ew
    let p := max 0 (pos + (e - med - 1/2))
    let g := max 0 (neg - (e - med + 1/2))
    if h < p ∨ h < g then
      ⟨t, 0, 0, true⟩ :: cusumGo med h e 0 0 (t + 1) rest
    else
      ⟨t, p, g, false⟩ :: cusumGo med h e p g (t + 1) rest

/-- Ascending insertion of one value, used to model the JS
`series.slice().sort((a,b)=>a-b)` ascending sort. -/
def insertAsc (x : ℚ) : List ℚ → List ℚ
  | [] => [x]
  | y :: ys => if x ≤ y then x :: y :: ys else y :: insertAsc x ys

/-- Ascending sort by repeated insertion; agrees elementwise with any
ascending sort of the same list. -/
def sortAsc : List ℚ → List ℚ
  | [] => []
  | x :: xs => insertAsc x (sortAsc xs)

/-- The median the source uses: element `⌊n/2⌋` of the ascending sort. -/
def medianOf (series : List ℚ) : ℚ :=
  (sortAsc series).getD (series.length / 2) 0

/-- The `mad` of the source: mean absolute deviation from `medianOf`. -/
def madOf (series : List ℚ) : ℚ :=
  (series.map (fun v => |v - medianOf series|)).sum / series.length

/-- The threshold `h = mad > 0 ? 5*mad : 10`. -/
def thresholdOf (series : List ℚ) : ℚ :=
  if 0 < madOf series then 5 * madOf series else 10

/-- Per-index loop states of `cusumEwmaAnomalies` (indices `1 … n-1`);
`ewma[0] = series[0]`, both accumulators start at 0. -/
def cusumStates (series : List ℚ) : List CusumEntry :=
  match series with
  | [] => []
  | s0 :: rest => cusumGo (medianOf series) (thresholdOf series) s0 0 0 1 rest

/-- `cusumEwmaAnomalies(series)` restricted to its first return value `idxs`:
the flagged indices, in increasing order. -/
def cusumEwmaAnomalies (series : List ℚ) : List ℕ :=
  ((cusumStates series).filter (·.flagged)).map (·.idx)

end Robust

namespace Rhythm

/-- One sleep record; both fields are clock times in minutes since midnight
(the source's `timeToMinutes` applied to its `HH:MM` strings). -/
structure SleepRec where
  sleepTime : ℚ
  wakeTime : ℚ

/-- One attendance record (`{ onTime: bool }`). -/
structure AttRec where
  onTime : Bool

/-- One task record as consumed by `calculateTaskCompletionConsistency`:
a calendar-day key and a completion flag. -/
structure TaskRec where
  date : ℕ
  completed : Bool

/-- One activity record.  `timestamp` is in whole hours, so the source's
`new Date(activity.timestamp).getHours()` is modelled as `timestamp % 24`. -/
structure ActRec where
  timestamp : ℕ

/-- `getHours` of an hour-grained timestamp. -/
def getHours (ts : ℕ) : ℕ := ts % 24

/-- Default config: composite weights sleep 0.30, attendance 0.20,
task 0.30, circadian 0.20 (constructor defaults of `RhythmAnalyzer`). -/
def wSleep : ℚ := 30 / 100

def wAttendance : ℚ := 20 / 100

def wTask : ℚ := 30 / 100

def wCircadian : ℚ := 20 / 100

/-- Default ideal sleep time 22:30 in minutes. -/
def idealSleepMinutes : ℚ := 22 * 60 + 30

/-- Default ideal wake time 06:30 in minutes. -/
def idealWakeMinutes : ℚ := 6 * 60 + 30

/-- `timeToRadians`: minutes on the 24-hour circle mapped to `[0, 2π)`. -/
noncomputable def timeToRadians (minutes : ℚ) : ℝ :=
  ((minutes : ℝ) / (24 * 60)) * (2 * Real.pi)

/-- Two-argument arctangent, the `Math.atan2(y, x)` of the source. -/
noncomputable def atan2 (y x : ℝ) : ℝ :=
  if 0 < x then Real.arctan (y / x)
  else if x < 0 then
    (if 0 ≤ y then Real.arctan (y / x) + Real.pi else Real.arctan (y / x) - Real.pi)
  else
    (if 0 < y then Real.pi / 2 else if y < 0 then -(Real.pi / 2) else 0)

/-- Result record of `circularStatistics`. -/
structure CircStats where
  mean : ℝ
  variance : ℝ
  stdDev : ℝ
  resultantLength : ℝ

/-- `circularStatistics(radians)`: mean resultant vector, circular mean via
`atan2`, circular variance `1 - R`. -/
noncomputable def circularStatistics (radians : List ℝ) : CircStats :=
  let n : ℝ := radians.length
  let sinSum := (radians.map Real.sin).sum
  let cosSum := (radians.map Real.cos).sum
  let meanSin := sinSum / n
  let meanCos := cosSum / n
  let mean := atan2 meanSin meanCos
  let r := Real.sqrt (meanSin * meanSin + meanCos * meanCos)
  ⟨mean, 1 - r, Real.sqrt (-2 * Real.log r), r⟩

/-- `circularDistance(angle1, angle2) = min(|a-b|, 2π-|a-b|)`. -/
noncomputable def circularDistance (angle1 angle2 : ℝ) : ℝ :=
  min |angle1 - angle2| (2 * Real.pi - |angle1 - angle2|)

/-- `calculateSleepConsistency`: neutral 0.5 on empty data, otherwise
`0.6·exp(-2(varS+varW)) + 0.4·exp(-0.5(devS+devW))`. -/
noncomputable def calculateSleepConsistency (sleepData : List SleepRec) : ℝ :=
  if sleepData.length = 0 then 1/2
  else
    let sleepStats := circularStatistics (sleepData.map (fun d => timeToRadians d.sleepTime))
    let wakeStats := circularStatistics (sleepData.map (fun d => timeToRadians d.wakeTime))
    let sleepDeviation := circularDistance sleepStats.mean (timeToRadians idealSleepMinutes)
    let wakeDeviation := circularDistance wakeStats.mean (timeToRadians idealWakeMinutes)
    let consistencyScore := Real.exp (-2 * (sleepStats.variance + wakeStats.variance))
    let alignmentScore := Real.exp (-(1/2) * (sleepDeviation + wakeDeviation))
    (6/10) * consistencyScore + (4/10) * alignmentScore

/-- The `forEach` of `calculateAttendanceConsistency` that collects maximal
runs of consecutive `onTime` records, including the trailing push. -/
def streaksAux : List AttRec → ℕ → List ℕ
  | [], cur => if 0 < cur then [cur] else []
  | r :: rest, cur =>
    if r.onTime then streaksAux rest (cur + 1)
    else if 0 < cur then cur :: streaksAux rest 0 else streaksAux rest 0

/-- Maximal streak lengths of a record sequence, in order. -/
def streaks (l : List AttRec) : List ℕ := streaksAux l 0

/-- `Σ Math.log1p(s)` over a list of streak lengths. -/
noncomputable def logStreakSum (s : List ℕ) : ℝ :=
  (s.map (fun k : ℕ => Real.log (1 + (k : ℝ)))).sum

/-- Indices of the non-`onTime` records (the source's `absences` array). -/
def absenceIdxs (l : List AttRec) : List ℕ :=
  l.enum.filterMap (fun p => if p.2.onTime then none else some p.1)

/-- Gaps between consecutive absence indices. -/
def gapsOf (idxs : List ℕ) : List ℚ :=
  (idxs.tail.zip idxs).map (fun p => (p.1 : ℚ) - (p.2 : ℚ))

/-- `calculateAttendanceConsistency`: neutral 0.5 on empty data, otherwise
`min(1, baseRate + 0.2·streakBonus - 0.1·irregularityPenalty)`. -/
noncomputable def calculateAttendanceConsistency (attendanceData : List AttRec) : ℝ :=
  if attendanceData.length = 0 then 1/2
  else
    let baseRate : ℚ := ((attendanceData.filter (·.onTime)).length : ℚ) / attendanceData.length
    let strs := streaks attendanceData
    let streakBonus : ℝ :=
      if 0 < strs.length then logStreakSum strs / attendanceData.length else 0
    let absences := absenceIdxs attendanceData
    let irregularityPenalty : ℝ :=
      if 1 < absences.length then
        let gaps := gapsOf absences
        let meanGap : ℚ := gaps.sum / gaps.length
        let stdGap : ℝ := Real.sqrt (((gaps.map (fun g => (g - meanGap) ^ 2)).sum / gaps.length : ℚ))
        if 0 < meanGap then stdGap / (meanGap : ℝ) else 0
      else 0
    min 1 ((baseRate : ℝ) + (2/10) * streakBonus - (1/10) * irregularityPenalty)

/-- Distinct task dates in first-appearance order (the key set of the
source's `dailyRates` object, whose keys keep insertion order). -/
def firstDates (l : List TaskRec) : List ℕ :=
  l.foldl (fun acc r => if r.date ∈ acc then acc else acc ++ [r.date]) []

/-- Daily completion ratios, one per distinct date. -/
def dailyRates (l : List TaskRec) : List ℚ :=
  (firstDates l).map (fun d =>
    let g := l.filter (fun r => r.date == d)
    ((g.filter (·.completed)).length : ℚ) / g.length)

/-- `calculateTrend(values)`: ordinary least-squares slope of value vs index. -/
def calculateTrend (values : List ℚ) : ℚ :=
  let n : ℚ := values.length
  let xs := (List.range values.length).map (fun i => (i : ℚ))
  let sumX := xs.sum
  let sumY := values.sum
  let sumXY := ((xs.zip values).map (fun p => p.1 * p.2)).sum
  let sumX2 := (xs.map (fun x => x * x)).sum
  (n * sumXY - sumX * sumY) / (n * sumX2 - sumX * sumX)

/-- `detectWeeklyPattern(values)`: mean `|v[i] - v[i+7]|` over the valid
window; 0 for fewer than 14 points. -/
def detectWeeklyPattern (values : List ℚ) : ℚ :=
  if values.length < 14 then 0
  else
    let weeklyFreq := 7
    let weeklyComponent :=
      ((List.range (values.length - weeklyFreq)).map
        (fun i => |values.getD i 0 - values.getD (i + weeklyFreq) 0|)).sum
    weeklyComponent / ((values.length - weeklyFreq : ℕ) : ℚ)

/-- `calculateTaskCompletionConsistency`: sigmoid of the coefficient of
variation of daily completion ratios, plus trend and periodicity terms. -/
noncomputable def calculateTaskCompletionConsistency (taskData : List TaskRec) : ℝ :=
  if taskData.length = 0 then 1/2
  else
    let rs := dailyRates taskData
    if rs.length = 0 then 1/2
    else
      let mean : ℚ := rs.sum / rs.length
      let variance : ℚ := (rs.map (fun r => (r - mean) ^ 2)).sum / rs.length
      let cv : ℝ := Real.sqrt (variance : ℚ) / ((mean : ℝ) + 1/1000)
      let consistencyScore : ℝ := 1 / (1 + Real.exp (5 * (cv - 1/2)))
      let trendBonus : ℝ := if 7 < rs.length then Real.tanh ((calculateTrend rs : ℝ) * 10) else 0
      let periodicityScore : ℝ := if 14 < rs.length then 1 - (detectWeeklyPattern rs : ℝ) else 1/2
      (5/10) * consistencyScore + (3/10) * periodicityScore + (2/10) * max 0 trendBonus

/-- Count of activities in hour bucket `h` (the source's `hourDistribution`). -/
def hourCount (activityData : List ActRec) (h : ℕ) : ℕ :=
  (activityData.filter (fun a => getHours a.timestamp == h)).length

/-- Total of the 24 hour buckets. -/
def totalCount (activityData : List ActRec) : ℚ :=
  (((List.range 24).map (hourCount activityData)).sum : ℕ)

/-- Normalized probability of hour bucket `h`. -/
def hourProb (activityData : List ActRec) (h : ℕ) : ℚ :=
  (hourCount activityData h : ℚ) / totalCount activityData

/-- Activity mass of the window `for (hour = s; hour <= e; hour++)` with the
bucket taken at `hour % 24`.  As in the source, a window with `s > e` (the
late-night window 23–5) iterates zero times. -/
def windowActivity (activityData : List ActRec) (s e : ℕ) : ℚ :=
  ((List.range (e + 1 - s)).map (fun i => hourProb activityData ((s + i) % 24))).sum

/-- `calculateCircadianAlignment`: base 0.5 plus the four weighted window
sums, in the source's entry order, clamped into `[0,1]`. -/
def calculateCircadianAlignment (activityData : List ActRec) : ℚ :=
  if activityData.length = 0 then 1/2
  else
    let alignmentScore : ℚ :=
      1/2 + (3/10) * windowActivity activityData 10 12
          + (3/10) * windowActivity activityData 16 18
          + (-(2/10)) * windowActivity activityData 13 15
          + (-(1/2)) * windowActivity activityData 23 5
    min 1 (max 0 alignmentScore)

/-- The four sub-scores on a 0–100 scale, as returned in `components`. -/
structure RhythmComponents where
  sleep : ℝ
  attendance : ℝ
  task : ℝ
  circadian : ℝ

/-- Numeric part of the `computeRhythmScore` return value. -/
structure RhythmResult where
  composite : ℝ
  components : RhythmComponents

/-- One turn of the `for (const [key, value] of Object.entries(components))`
loop: a sub-score `value > 0` contributes `weight/value` to `harmonicSum`
and `weight` to `weightSum`; other sub-scores are skipped. -/
noncomputable def harmonicStep (acc : ℝ × ℝ) (wv : ℝ × ℝ) : ℝ × ℝ :=
  if 0 < wv.2 then (acc.1 + wv.1 / wv.2, acc.2 + wv.1) else acc

/-- The accumulated `(harmonicSum, weightSum)` over the weight/sub-score
pairs, starting from `(0, 0)`. -/
noncomputable def harmonicFold (pairs : List (ℝ × ℝ)) : ℝ × ℝ :=
  pairs.foldl harmonicStep (0, 0)

/-- `computeRhythmScore(data)`: the weighted harmonic mean over the
sub-scores that are `> 0`, iterated in entry order (sleep, attendance,
task, circadian), scaled by 100 and clamped into `[0,100]`. -/
noncomputable def computeRhythmScore (sleepData : List SleepRec) (attendanceData : List AttRec)
    (taskData : List TaskRec) (activityData : List ActRec) : RhythmResult :=
  let c1 := calculateSleepConsistency sleepData
  let c2 := calculateAttendanceConsistency attendanceData
  let c3 := calculateTaskCompletionConsistency taskData
  let c4 : ℝ := (calculateCircadianAlignment activityData : ℚ)
  let hw := harmonicFold [((wSleep : ℝ), c1), ((wAttendance : ℝ), c2),
    ((wTask : ℝ), c3), ((wCircadian : ℝ), c4)]
  let compositeScore := if 0 < hw.2 then hw.2 / hw.1 else 0
  ⟨min 100 (max 0 (compositeScore * 100)), ⟨c1 * 100, c2 * 100, c3 * 100, c4 * 100⟩⟩

end Rhythm

namespace TaskManager

/-- Task priority: the three enumerated keys of `priorityWeights`, plus one
constructor standing for any other string (whose lookup is `undefined`). -/
inductive Priority
  | high
  | medium
  | low
  | unknownKey
deriving DecidableEq

/-- Task category: the five enumerated keys of `categoryWeights`, plus one
constructor standing for any other string. -/
inductive Category
  | work
  | learning
  | fitness
  | personal
  | wellness
  | unknownKey
deriving DecidableEq

/-- A goal record as read by `calculateGoalScore`; `deadline` is measured in
days (the source divides a millisecond difference by 86 400 000). -/
structure Goal where
  id : ℕ
  deadline : Option ℚ

/-- A task as consumed by the component scorers of `task-manager.js`. -/
structure Task where
  priority : Priority
  date : ℕ
  duration : ℚ
  category : Category
  goalId : Option ℕ
  completed : Bool

/-- The `priorityWeights` object; an out-of-enumeration key yields `none`
(JS `undefined`, which poisons the product into NaN). -/
def priorityWeights : Priority → Option ℚ
  | .high => some 1
  | .medium => some (7/10)
  | .low => some (4/10)
  | .unknownKey => none

/-- The `categoryWeights` object of `calculateQualityScore`. -/
def categoryWeights : Category → Option ℚ
  | .work => some (9/10)
  | .learning => some (85/100)
  | .fitness => some (7/10)
  | .personal => some (6/10)
  | .wellness => some (5/10)
  | .unknownKey => none

/-- `Task.calculateEffortScore`: `priorityWeights[priority] ·
min(duration/120, 1) · 100`; `none` models the NaN produced by an unknown
priority key.  No clamping is performed. -/
noncomputable def calculateEffortScore (t : Task) : Option ℝ :=
  (priorityWeights t.priority).map
    (fun w => (w : ℝ) * min ((t.duration : ℝ) / 120) 1 * 100)

/-- `Task.calculateDurationScore`: `100·(duration ≤ 60 ? 1 :
exp(-0.01·(duration-60)))` when completed, else the neutral 50. -/
noncomputable def calculateDurationScore (t : Task) : ℝ :=
  if t.completed then
    (if t.duration ≤ 60 then 1 else Real.exp (-(1/100) * ((t.duration : ℝ) - 60))) * 100
  else 50

/-- `Task.calculateQualityScore`: `100·(completed ? base : 0.3·base)` with
`base = categoryWeights[category] || 0.5`. -/
noncomputable def calculateQualityScore (t : Task) : ℝ :=
  let baseScore : ℚ := (categoryWeights t.category).getD (1/2)
  (if t.completed then (baseScore : ℝ) else (baseScore : ℝ) * (3/10)) * 100

/-- `Task.calculateGoalUrgency`: `exp(-0.05·max(daysUntilDeadline, 0))`, or
0.5 when the goal has no deadline.  `now` and the deadline are in days. -/
noncomputable def calculateGoalUrgency (goal : Goal) (now : ℚ) : ℝ :=
  match goal.deadline with
  | none => 1/2
  | some dl => Real.exp (-(5/100) * max ((dl : ℝ) - (now : ℝ)) 0)

/-- `Task.calculateGoalScore`: 30 when `goalId` is null or does not resolve
in the goal collection, otherwise `100·urgency`. -/
noncomputable def calculateGoalScore (t : Task) (goals : List Goal) (now : ℚ) : ℝ :=
  match t.goalId with
  | none => 30
  | some gid =>
    match goals.find? (fun g => g.id == gid) with
    | none => 30
    | some goal => calculateGoalUrgency goal now * 100

/-- The E/D/Q/G record of `Task.getProductivityComponents`. -/
structure Components where
  effort : ℝ
  duration : ℝ
  quality : ℝ
  goal : ℝ

/-- `Task.getProductivityComponents`; `none` models the NaN-poisoned record
of a task with an out-of-enumeration priority. -/
noncomputable def getProductivityComponents (t : Task) (goals : List Goal) (now : ℚ) :
    Option Components :=
  (calculateEffortScore t).map
    (fun e => ⟨e, calculateDurationScore t, calculateQualityScore t, calculateGoalScore t goals now⟩)

/-- A stored daily productivity record (numeric fields only). -/
structure ScoreRec where
  effort : ℝ
  duration : ℝ
  quality : ℝ
  goal : ℝ
  composite : ℝ
  taskCount : ℕ

/-- The `dayTasks.forEach` collection of per-task component records;
`none` as soon as one task's record is NaN-poisoned (the NaN would propagate
through every running total). -/
noncomputable def componentsOfTasks (goals : List Goal) (now : ℚ) :
    List Task → Option (List Components)
  | [] => some []
  | t :: rest =>
    match getProductivityComponents t goals now, componentsOfTasks goals now rest with
    | some c, some cs => some (c :: cs)
    | _, _ => none

/-- `calculateDailyProductivity(date)`: filter the day's tasks, average each
component across them, then the weighted sum with the default 4-component
weights (0.25 each).  `none` when the day has no tasks (the early return) or
when a component is NaN-poisoned. -/
noncomputable def calculateDailyProductivity (tasks : List Task) (goals : List Goal) (now : ℚ)
    (date : ℕ) : Option ScoreRec :=
  let dayTasks := tasks.filter (fun t => t.date == date)
  if dayTasks.length = 0 then none
  else
    match componentsOfTasks goals now dayTasks with
    | none => none
    | some comps =>
      let count : ℝ := dayTasks.length
      let avgE := (comps.map (·.effort)).sum / count
      let avgD := (comps.map (·.duration)).sum / count
      let avgQ := (comps.map (·.quality)).sum / count
      let avgG := (comps.map (·.goal)).sum / count
      let composite := (25/100) * avgE + (25/100) * avgD + (25/100) * avgQ + (25/100) * avgG
      some ⟨avgE, avgD, avgQ, avgG, composite, dayTasks.length⟩

end TaskManager

namespace Park

/-- The migration `Task` class of `park/migration-rhythm.js`: the
`task-manager.js` fields plus the rhythm-related fields.  Start times are in
minutes (`timeToMinutes` of the stored `HH:MM` strings); `none` models the
falsy empty-string/null values. -/
structure Task where
  priority : TaskManager.Priority
  date : ℕ
  duration : ℚ
  category : TaskManager.Category
  goalId : Option ℕ
  completed : Bool
  recurring : Bool
  completedOnTime : Bool
  plannedStartTime : Option ℚ
  actualStartTime : Option ℚ

/-- The migration copy of `calculateGoalUrgency` (identical formula). -/
noncomputable def calculateGoalUrgency (goal : TaskManager.Goal) (now : ℚ) : ℝ :=
  match goal.deadline with
  | none => 1/2
  | some dl => Real.exp (-(5/100) * max ((dl : ℝ) - (now : ℝ)) 0)

/-- The migration copy of `Task.calculateGoalScore` (identical formula). -/
noncomputable def calculateGoalScore (t : Task) (goals : List TaskManager.Goal) (now : ℚ) : ℝ :=
  match t.goalId with
  | none => 30
  | some gid =>
    match goals.find? (fun g => g.id == gid) with
    | none => 30
    | some goal => calculateGoalUrgency goal now * 100

/-- `Task.calculateRhythmScore`: base 50, +20 for on-time completion, +20/+10
for a start-time deviation under 15/30 minutes, +10 for a completed recurring
task, then `min(100, max(0, ·))`. -/
def calculateRhythmScore (t : Task) : ℚ :=
  let s1 : ℚ := 50 + (if t.completedOnTime then 20 else 0)
  let s2 : ℚ := s1 +
    (match t.actualStartTime, t.plannedStartTime with
     | some a, some p =>
       let timeDiff := |a - p|
       if timeDiff < 15 then 20 else if timeDiff < 30 then 10 else 0
     | _, _ => 0)
  let s3 : ℚ := s2 + (if t.recurring && t.completed then 10 else 0)
  min 100 (max 0 s3)

end Park

namespace P3

/-- The `clamp(value, min=0, max=100)` of the core-utilities module over ℚ.
`Number.isFinite` is true of every rational/real, so the non-finite early
return (`lo`) is unreachable in this embedding. -/
def clampQ (value lo hi : ℚ) : ℚ := min hi (max lo value)

/-- The same `clamp` applied to real-valued intermediate scores. -/
noncomputable def clampR (value lo hi : ℝ) : ℝ := min hi (max lo value)

/-- Energy levels: the five `ENERGY_MULTIPLIER` keys plus any other string. -/
inductive Energy
  | high
  | elevated
  | medium
  | low
  | depleted
  | unknownKey
deriving DecidableEq

/-- Focus modes: the six `FOCUS_PROFILE` keys plus any other string. -/
inductive Focus
  | deep
  | creative
  | collaborative
  | administrative
  | recovery
  | balanced
  | unknownKey
deriving DecidableEq

/-- Context tags: the five `CONTEXT_BONUS` keys plus any other string. -/
inductive CTag
  | deadline
  | review
  | preparation
  | delivery
  | learning
  | unknownTag
deriving DecidableEq

/-- Sentiment values compared against the two string literals. -/
inductive Sentiment
  | positive
  | negative
  | neutral
deriving DecidableEq

/-- The `ENERGY_MULTIPLIER` table. -/
def energyMultiplier : Energy → Option ℚ
  | .high => some (112/100)
  | .elevated => some (106/100)
  | .medium => some 1
  | .low => some (88/100)
  | .depleted => some (75/100)
  | .unknownKey => none

/-- `effectiveEnergy(level)`: table lookup with fallback to `medium` (=1). -/
def effectiveEnergy (level : Energy) : ℚ := (energyMultiplier level).getD 1

/-- One `FOCUS_PROFILE` row. -/
structure FocusAdj where
  effort : ℚ
  duration : ℚ
  quality : ℚ
deriving DecidableEq

/-- The `FOCUS_PROFILE` table. -/
def focusProfile : Focus → Option FocusAdj
  | .deep => some ⟨108/100, 105/100, 105/100⟩
  | .creative => some ⟨104/100, 96/100, 108/100⟩
  | .collaborative => some ⟨102/100, 98/100, 102/100⟩
  | .administrative => some ⟨96/100, 104/100, 94/100⟩
  | .recovery => some ⟨75/100, 85/100, 9/10⟩
  | .balanced => some ⟨1, 1, 1⟩
  | .unknownKey => none

/-- `focusAdjustments(mode)`: table lookup with fallback to `balanced`. -/
def focusAdjustments (mode : Focus) : FocusAdj := (focusProfile mode).getD ⟨1, 1, 1⟩

/-- The `CONTEXT_BONUS` table with the `|| 0` fallback folded in. -/
def contextBonus : CTag → ℚ
  | .deadline => 8
  | .review => 6
  | .preparation => 5
  | .delivery => 10
  | .learning => 4
  | .unknownTag => 0

/-- The `PRIORITY_BASE` table. -/
def priorityBase : TaskManager.Priority → Option ℚ
  | .high => some 90
  | .medium => some 65
  | .low => some 45
  | .unknownKey => none

/-- The `CATEGORY_QUALITY` table (`uncategorized` = 55 is the fallback). -/
def categoryQualityTable : TaskManager.Category → Option ℚ
  | .work => some 85
  | .learning => some 80
  | .fitness => some 72
  | .personal => some 60
  | .wellness => some 58
  | .unknownKey => none

/-- A task as consumed by `computeComponents`.  `Option` fields model JS
`undefined`/falsy handling: `progress` and `qualityScore` fall back when
absent or 0, `confidence` requires `typeof === 'number'`, and
`goalImportance`/`goalUrgency` are truthiness-guarded. -/
structure P3Task where
  duration : ℚ
  completed : Bool
  progress : Option ℚ
  energyLevel : Energy
  focusMode : Focus
  contextTags : List CTag
  goalLinked : Bool
  qualityScore : Option ℚ
  confidence : Option ℚ
  priority : TaskManager.Priority
  category : TaskManager.Category
  sentiment : Sentiment
  lift : ℚ
  contextSwitches : ℚ
  goalImportance : Option ℚ
  goalUrgency : Option ℚ

/-- The `options` argument: `optimalDuration` with the `|| 60` fallback. -/
structure P3Options where
  optimalDuration : Option ℚ

/-- The E/D/Q/G record returned by `computeComponents`. -/
structure P3Components where
  effort : ℝ
  duration : ℝ
  quality : ℝ
  goal : ℝ

/-- `computeComponents(task, options)` of the core-utilities module.  The
only non-rational operations are `Math.exp`/`Math.log` in the duration
curve; in JS a negative duration feeds `Math.log` a negative number and the
resulting NaN is clamped to 0, while here `Real.log` takes its junk value
and the result is clamped into the same `[0,100]` interval. -/
noncomputable def computeComponents (task : P3Task) (options : P3Options) : P3Components :=
  let duration := task.duration
  let completionRatioVal : ℚ :=
    if task.completed then 1
    else min (85/100) (match task.progress with
      | none => 1/2
      | some p => if p = 0 then 1/2 else p)
  let goalLinked := task.goalLinked
  let confidence : ℚ := match task.confidence with
    | none => 8/10
    | some c => clampQ c 0 1
  let baseEffort : ℚ := (priorityBase task.priority).getD 55
  let energyBoost := effectiveEnergy task.energyLevel
  let focusBoost := (focusAdjustments task.focusMode).effort
  let durationContribution : ℚ := min (duration / 90) (12/10) * 20
  let effort0 : ℚ := baseEffort * energyBoost * focusBoost + durationContribution
  let optimalDuration : ℚ := match options.optimalDuration with
    | none => 60
    | some v => if v = 0 then 60 else v
  let durRel : ℚ := if 0 < optimalDuration then duration / optimalDuration else 1
  let dur0 : ℝ :=
    100 * Real.exp (-(8/10) * Real.log (if durRel = 0 then 1 else (durRel : ℝ)) ^ 2)
  let dur1 : ℝ := dur0 * ((focusAdjustments task.focusMode).duration : ℝ)
  let dur2 : ℝ := dur1 * (if goalLinked then (102/100 : ℝ) else 1)
  let dur3 : ℝ := dur2 * (completionRatioVal : ℝ)
  let categoryQuality : ℚ := (categoryQualityTable task.category).getD 55
  let q0 : ℚ := match task.qualityScore with
    | none => categoryQuality
    | some q => if q = 0 then categoryQuality else q
  let q1 : ℚ := q0 * (focusAdjustments task.focusMode).quality
  let q2 : ℚ := q1 + (if task.sentiment = .positive then 6 else 0)
  let q3 : ℚ := q2 - (if task.sentiment = .negative then 8 else 0)
  let q4 : ℚ := q3 + min 10 task.lift
  let g0 : ℚ := if goalLinked then 78 else 38
  let g1 : ℚ := g0 + (match task.goalImportance with
    | some gi => if gi = 0 then 0 else clampQ (gi * 10) 0 15
    | none => 0)
  let g2 : ℚ := g1 + (match task.goalUrgency with
    | some gu => if gu = 0 then 0 else clampQ (gu * 8) (-10) 12
    | none => 0)
  let g3 : ℚ := g2 + (task.contextTags.map contextBonus).sum
  let contextPenalty : ℚ := clampQ (1 - min (35/100) (task.contextSwitches * (7/100))) (6/10) 1
  let effort1 : ℚ := effort0 * contextPenalty
  let dur4 : ℝ := dur3 * (contextPenalty : ℝ)
  let confidenceFloor : ℚ := 6/10 + confidence * (4/10)
  let effort2 : ℚ := effort1 * confidenceFloor
  let dur5 : ℝ := dur4 * (confidenceFloor : ℝ)
  let q5 : ℚ := q4 * confidenceFloor
  let g4 : ℚ := g3 * confidenceFloor
  ⟨clampR (effort2 : ℝ) 0 100, clampR dur5 0 100, clampR (q5 : ℝ) 0 100, clampR (g4 : ℝ) 0 100⟩

end P3

/-! ### Support lemmas (shared; not tied to any single claim) -/

namespace Robust

theorem mem_insertAsc {y x : ℚ} : ∀ {l : List ℚ}, y ∈ insertAsc x l ↔ y = x ∨ y ∈ l := by
  intro l
  induction l with
  | nil => simp [insertAsc]
  | cons z zs ih =>
    rw [insertAsc]
    split
    · simp [List.mem_cons]
    · simp only [List.mem_cons, ih]
      tauto

theorem mem_sortAsc {y : ℚ} : ∀ {l : List ℚ}, y ∈ sortAsc l ↔ y ∈ l := by
  intro l
  induction l with
  | nil => simp [sortAsc]
  | cons z zs ih => simp [sortAsc, mem_insertAsc, ih]

theorem length_insertAsc (x : ℚ) : ∀ (l : List ℚ), (insertAsc x l).length = l.length + 1 := by
  intro l
  induction l with
  | nil => rfl
  | cons z zs ih =>
    rw [insertAsc]
    split
    · simp
    · simp [ih]

theorem length_sortAsc : ∀ (l : List ℚ), (sortAsc l).length = l.length := by
  intro l
  induction l with
  | nil => rfl
  | cons z zs ih => simp [sortAsc, length_insertAsc, ih]

theorem getD_eq_of_all {m : List ℚ} {c : ℚ} (hall : ∀ x ∈ m, x = c) {i : ℕ}
    (hi : i < m.length) : m.getD i 0 = c := by
  rw [List.getD_eq_getElem m 0 hi]
  exact hall _ (List.getElem_mem hi)

theorem medianOf_const {l : List ℚ} {c : ℚ} (hne : l ≠ []) (hall : ∀ x ∈ l, x = c) :
    medianOf l = c := by
  have hlen : 0 < l.length := List.length_pos.mpr hne
  have hi : l.length / 2 < (sortAsc l).length := by
    rw [length_sortAsc]
    exact Nat.div_lt_self hlen (by norm_num)
  exact getD_eq_of_all (fun x hx => hall x (mem_sortAsc.mp hx)) hi

theorem madOf_const {l : List ℚ} {c : ℚ} (hne : l ≠ []) (hall : ∀ x ∈ l, x = c) :
    madOf l = 0 := by
  rw [madOf]
  have hz : (l.map (fun v => |v - medianOf l|)).sum = 0 := by
    apply List.sum_eq_zero
    intro x hx
    rcases List.mem_map.mp hx with ⟨v, hv, rfl⟩
    rw [hall v hv, medianOf_const hne hall, sub_self, abs_zero]
  rw [hz, zero_div]

theorem thresholdOf_const {l : List ℚ} {c : ℚ} (hne : l ≠ []) (hall : ∀ x ∈ l, x = c) :
    thresholdOf l = 10 := by
  rw [thresholdOf, madOf_const hne hall, if_neg (lt_irrefl 0)]

theorem cusumGo_const (c : ℚ) : ∀ (rest : List ℚ) (t : ℕ), (∀ x ∈ rest, x = c) →
    ∀ en ∈ cusumGo c 10 c 0 0 t rest, en.flagged = false := by
  intro rest
  induction rest with
  | nil =>
    intro t _ en hen
    simp [cusumGo] at hen
  | cons v vs ih =>
    intro t hall en hen
    have hv : v = c := hall v (List.mem_cons_self v vs)
    simp only [cusumGo, hv] at hen
    have hec : (1 : ℚ)/5 * c + 4/5 * c = c := by ring
    have hkeyp : max (0:ℚ) (0 + (1/5 * c + 4/5 * c - c - 1/2)) = 0 := by
      have h1 : (0:ℚ) + (1/5 * c + 4/5 * c - c - 1/2) = -(1/2) := by ring
      rw [h1]
      exact max_eq_left (by norm_num)
    have hkeyg : max (0:ℚ) (0 - (1/5 * c + 4/5 * c - c + 1/2)) = 0 := by
      have h1 : (0:ℚ) - (1/5 * c + 4/5 * c - c + 1/2) = -(1/2) := by ring
      rw [h1]
      exact max_eq_left (by norm_num)
    rw [hkeyp, hkeyg, hec] at hen
    rw [if_neg (by norm_num)] at hen
    rcases List.mem_cons.mp hen with rfl | htail
    · rfl
    · exact ih (t + 1) (fun x hx => hall x (List.mem_cons_of_mem v hx)) en htail

theorem cusumEwmaAnomalies_const {l : List ℚ} {c : ℚ} (hall : ∀ x ∈ l, x = c) :
    cusumEwmaAnomalies l = [] := by
  match l with
  | [] => rfl
  | s0 :: rest =>
    have hs0 : s0 = c := hall s0 (List.mem_cons_self s0 rest)
    have hne : s0 :: rest ≠ ([] : List ℚ) := by simp
    rw [cusumEwmaAnomalies, cusumStates, medianOf_const hne hall, thresholdOf_const hne hall, hs0]
    have hnoflag := cusumGo_const c rest 1 (fun x hx => hall x (List.mem_cons_of_mem s0 hx))
    rw [List.filter_eq_nil_iff.mpr, List.map_nil]
    intro en hen
    simp [hnoflag en hen]

theorem cusumGo_flag_reset (med h : ℚ) : ∀ (l : List ℚ) (ew pos neg : ℚ) (t : ℕ),
    ∀ en ∈ cusumGo med h ew pos neg t l, en.flagged = true → en.pos = 0 ∧ en.neg = 0 := by
  intro l
  induction l with
  | nil =>
    intro ew pos neg t en hen
    simp [cusumGo] at hen
  | cons v vs ih =>
    intro ew pos neg t en hen hfl
    rw [cusumGo] at hen
    split at hen
    · rcases List.mem_cons.mp hen with rfl | htail
      · exact ⟨rfl, rfl⟩
      · exact ih _ _ _ _ en htail hfl
    · rcases List.mem_cons.mp hen with rfl | htail
      · exact absurd hfl (by simp)
      · exact ih _ _ _ _ en htail hfl

theorem weightSum_floor_pos (w : Weights) : 0 < weightSum (floorWeights w) := by
  have h1 : minWeight ≤ max minWeight w.effort := le_max_left _ _
  have h2 : minWeight ≤ max minWeight w.duration := le_max_left _ _
  have h3 : minWeight ≤ max minWeight w.quality := le_max_left _ _
  have h4 : minWeight ≤ max minWeight w.goals := le_max_left _ _
  have h5 : minWeight ≤ max minWeight w.rhythm := le_max_left _ _
  have hm : (0:ℚ) < minWeight := by norm_num [minWeight]
  simp only [weightSum, floorWeights]
  linarith

theorem weightSum_normalize (w : Weights) : weightSum (normalizeWeights w) = 1 := by
  have hs := weightSum_floor_pos w
  simp only [normalizeWeights, weightSum] at hs ⊢
  field_simp

end Robust

namespace Robust

theorem normalize_fixed (u : Weights) (hf : floorWeights u = u) (hs : weightSum u = 1) :
    normalizeWeights u = u := by
  cases u with
  | mk a b c d e =>
    simp only [normalizeWeights, hf, hs]
    simp

end Robust

/-! ### Claims C6, C7, C8 -/

/-- Claim C6, counterexample: at the all-positive weight map
`(0.05, 1, 1, 1, 1)` the normalized `effort` entry is `1/81 < 0.05`, even
though `floor · n = 0.25 ≤ 1`, refuting the claimed floor guarantee. -/
theorem c6_floor_counterexample :
    ((0:ℚ) < 1/20 ∧ (0:ℚ) < 1) ∧
    (Robust.normalizeWeights ⟨1/20, 1, 1, 1, 1⟩).effort = 1/81 ∧
    (Robust.normalizeWeights ⟨1/20, 1, 1, 1, 1⟩).effort < Robust.minWeight ∧
    ¬ 1 < Robust.minWeight * 5 := by
  refine ⟨⟨by norm_num, by norm_num⟩, ?_, ?_, ?_⟩ <;>
    norm_num [Robust.normalizeWeights, Robust.floorWeights, Robust.weightSum,
      Robust.minWeight, max_def]

/-- Claim C6 (amended): for every weight map, `normalizeWeights` returns
entries that sum to exactly 1 and are all positive, each at least
`minWeight` divided by the floored sum; the `≥ 0.05` floor itself is only
applied before the division and can fail afterwards. -/
theorem c6_normalize_weights_amended (w : Robust.Weights) :
    Robust.weightSum (Robust.normalizeWeights w) = 1 ∧
    (0 < (Robust.normalizeWeights w).effort ∧ 0 < (Robust.normalizeWeights w).duration ∧
     0 < (Robust.normalizeWeights w).quality ∧ 0 < (Robust.normalizeWeights w).goals ∧
     0 < (Robust.normalizeWeights w).rhythm) ∧
    (Robust.minWeight / Robust.weightSum (Robust.floorWeights w) ≤
       (Robust.normalizeWeights w).effort ∧
     Robust.minWeight / Robust.weightSum (Robust.floorWeights w) ≤
       (Robust.normalizeWeights w).duration ∧
     Robust.minWeight / Robust.weightSum (Robust.floorWeights w) ≤
       (Robust.normalizeWeights w).quality ∧
     Robust.minWeight / Robust.weightSum (Robust.floorWeights w) ≤
       (Robust.normalizeWeights w).goals ∧
     Robust.minWeight / Robust.weightSum (Robust.floorWeights w) ≤
       (Robust.normalizeWeights w).rhythm) := by
  have hs := Robust.weightSum_floor_pos w
  have hm : (0:ℚ) < Robust.minWeight := by norm_num [Robust.minWeight]
  refine ⟨Robust.weightSum_normalize w, ?_, ?_⟩
  · simp only [Robust.normalizeWeights, Robust.floorWeights]
    exact ⟨div_pos (lt_of_lt_of_le hm (le_max_left _ _)) hs,
      div_pos (lt_of_lt_of_le hm (le_max_left _ _)) hs,
      div_pos (lt_of_lt_of_le hm (le_max_left _ _)) hs,
      div_pos (lt_of_lt_of_le hm (le_max_left _ _)) hs,
      div_pos (lt_of_lt_of_le hm (le_max_left _ _)) hs⟩
  · simp only [Robust.normalizeWeights, Robust.floorWeights]
    exact ⟨(div_le_div_iff_of_pos_right hs).mpr (le_max_left _ _),
      (div_le_div_iff_of_pos_right hs).mpr (le_max_left _ _),
      (div_le_div_iff_of_pos_right hs).mpr (le_max_left _ _),
      (div_le_div_iff_of_pos_right hs).mpr (le_max_left _ _),
      (div_le_div_iff_of_pos_right hs).mpr (le_max_left _ _)⟩

/-- Claim C7, counterexample: at the all-positive weight map
`(0.05, 1, 1, 1, 1)` a second application of `normalizeWeights` changes the
result (the first output's `effort` entry `1/81` gets re-floored), so the
function is not idempotent. -/
theorem c7_not_idempotent_counterexample :
    ((0:ℚ) < 1/20 ∧ (0:ℚ) < 1) ∧
    Robust.normalizeWeights (Robust.normalizeWeights ⟨1/20, 1, 1, 1, 1⟩) ≠
      Robust.normalizeWeights ⟨1/20, 1, 1, 1, 1⟩ := by
  refine ⟨⟨by norm_num, by norm_num⟩, fun hcontra => ?_⟩
  have h := congrArg Robust.Weights.effort hcontra
  norm_num [Robust.normalizeWeights, Robust.floorWeights, Robust.weightSum,
    Robust.minWeight, max_def] at h

/-- Claim C7 (amended): `normalizeWeights` is idempotent exactly on the maps
whose normalized output keeps every entry at or above the 0.05 floor; for
such maps a second application is a no-op (exact, in real arithmetic). -/
theorem c7_normalize_idempotent_amended (w : Robust.Weights)
    (h : Robust.minWeight ≤ (Robust.normalizeWeights w).effort ∧
         Robust.minWeight ≤ (Robust.normalizeWeights w).duration ∧
         Robust.minWeight ≤ (Robust.normalizeWeights w).quality ∧
         Robust.minWeight ≤ (Robust.normalizeWeights w).goals ∧
         Robust.minWeight ≤ (Robust.normalizeWeights w).rhythm) :
    Robust.normalizeWeights (Robust.normalizeWeights w) = Robust.normalizeWeights w := by
  obtain ⟨h1, h2, h3, h4, h5⟩ := h
  have hfloor : Robust.floorWeights (Robust.normalizeWeights w) = Robust.normalizeWeights w := by
    simp only [Robust.floorWeights, max_eq_right h1, max_eq_right h2, max_eq_right h3,
      max_eq_right h4, max_eq_right h5]
  exact Robust.normalize_fixed _ hfloor (Robust.weightSum_normalize w)

/-- Witness for C7 (amended) at the default weight vector
`(0.20, 0.20, 0.25, 0.20, 0.15)`, every normalized entry of which is well
above the floor. -/
theorem c7_idempotent_witness :
    (Robust.minWeight ≤ (Robust.normalizeWeights Robust.defaultWeights).effort ∧
     Robust.minWeight ≤ (Robust.normalizeWeights Robust.defaultWeights).duration ∧
     Robust.minWeight ≤ (Robust.normalizeWeights Robust.defaultWeights).quality ∧
     Robust.minWeight ≤ (Robust.normalizeWeights Robust.defaultWeights).goals ∧
     Robust.minWeight ≤ (Robust.normalizeWeights Robust.defaultWeights).rhythm) ∧
    Robust.normalizeWeights (Robust.normalizeWeights Robust.defaultWeights) =
      Robust.normalizeWeights Robust.defaultWeights := by
  have h : Robust.minWeight ≤ (Robust.normalizeWeights Robust.defaultWeights).effort ∧
      Robust.minWeight ≤ (Robust.normalizeWeights Robust.defaultWeights).duration ∧
      Robust.minWeight ≤ (Robust.normalizeWeights Robust.defaultWeights).quality ∧
      Robust.minWeight ≤ (Robust.normalizeWeights Robust.defaultWeights).goals ∧
      Robust.minWeight ≤ (Robust.normalizeWeights Robust.defaultWeights).rhythm := by
    norm_num [Robust.normalizeWeights, Robust.floorWeights, Robust.weightSum,
      Robust.minWeight, Robust.defaultWeights, max_def]
  exact ⟨h, c7_normalize_idempotent_amended Robust.defaultWeights h⟩

set_option maxHeartbeats 4000000 in
set_option maxRecDepth 40000 in
/-- Claim C8: `cusumEwmaAnomalies` flags nothing on any constant series
(where the MAD is 0 and the constant fallback threshold 10 applies); on
twenty 50s followed by ten 90s it flags exactly indices 24, 27, 29 — the
first within 5 positions of the step at index 20 — and at every flagged
index both stored accumulators are reset to 0. -/
theorem c8_cusum_behaviour :
    (∀ (l : List ℚ) (c : ℚ), (∀ x ∈ l, x = c) →
      Robust.cusumEwmaAnomalies l = [] ∧
      (l ≠ [] → Robust.madOf l = 0 ∧ Robust.thresholdOf l = 10)) ∧
    Robust.cusumEwmaAnomalies (List.replicate 20 (50:ℚ) ++ List.replicate 10 90) = [24, 27, 29] ∧
    (24 ∈ Robust.cusumEwmaAnomalies (List.replicate 20 (50:ℚ) ++ List.replicate 10 90) ∧
      24 - 20 ≤ 5) ∧
    (∀ (series : List ℚ), ∀ en ∈ Robust.cusumStates series,
      en.flagged = true → en.pos = 0 ∧ en.neg = 0) := by
  have hflags :
      Robust.cusumEwmaAnomalies (List.replicate 20 (50:ℚ) ++ List.replicate 10 90)
        = [24, 27, 29] := by
    norm_num [Robust.cusumEwmaAnomalies, Robust.cusumStates, Robust.cusumGo, Robust.medianOf,
      Robust.thresholdOf, Robust.madOf, Robust.sortAsc, Robust.insertAsc, List.replicate]
  refine ⟨?_, hflags, ⟨by rw [hflags]; norm_num, by norm_num⟩, ?_⟩
  · intro l c hall
    exact ⟨Robust.cusumEwmaAnomalies_const hall,
      fun hne => ⟨Robust.madOf_const hne hall, Robust.thresholdOf_const hne hall⟩⟩
  · intro series en hen hfl
    cases series with
    | nil => simp [Robust.cusumStates] at hen
    | cons s0 rest =>
      simp only [Robust.cusumStates] at hen
      exact Robust.cusumGo_flag_reset _ _ rest s0 0 0 1 en hen hfl

/-- Witness for C8 at the concrete constant series `[7, 7, 7]`. -/
theorem c8_cusum_witness :
    (∀ x ∈ [(7:ℚ), 7, 7], x = 7) ∧ Robust.cusumEwmaAnomalies [(7:ℚ), 7, 7] = [] :=
  ⟨by simp, (c8_cusum_behaviour.1 [7, 7, 7] 7 (by simp)).1⟩

namespace Rhythm

theorem calculateSleepConsistency_pos (sleepData : List SleepRec) :
    0 < calculateSleepConsistency sleepData := by
  unfold calculateSleepConsistency
  split
  · norm_num
  · dsimp only
    positivity

theorem harmonicFold_aux : ∀ (pairs : List (ℝ × ℝ)) (acc : ℝ × ℝ),
    0 ≤ acc.1 → 0 ≤ acc.2 → (0 < acc.2 → 0 < acc.1) → (∀ p ∈ pairs, 0 < p.1) →
    0 ≤ (pairs.foldl harmonicStep acc).1 ∧ acc.2 ≤ (pairs.foldl harmonicStep acc).2 ∧
      (0 < (pairs.foldl harmonicStep acc).2 → 0 < (pairs.foldl harmonicStep acc).1) := by
  intro pairs
  induction pairs with
  | nil =>
    intro acc h1 h2 h3 _
    exact ⟨h1, le_refl _, h3⟩
  | cons p ps ih =>
    intro acc h1 h2 h3 hw
    have hwp : 0 < p.1 := hw p (List.mem_cons_self p ps)
    rw [List.foldl_cons]
    have hstep : 0 ≤ (harmonicStep acc p).1 ∧ acc.2 ≤ (harmonicStep acc p).2 ∧
        (0 < (harmonicStep acc p).2 → 0 < (harmonicStep acc p).1) := by
      rw [harmonicStep]
      split
      · refine ⟨add_nonneg h1 (div_pos hwp (by assumption)).le, by simp [hwp.le], fun _ => ?_⟩
        exact add_pos_of_nonneg_of_pos h1 (div_pos hwp (by assumption))
      · exact ⟨h1, le_refl _, h3⟩
    obtain ⟨hs1, hs2, hs3⟩ := hstep
    obtain ⟨hr1, hr2, hr3⟩ := ih (harmonicStep acc p) hs1 (h2.trans hs2) hs3
      (fun q hq => hw q (List.mem_cons_of_mem p hq))
    exact ⟨hr1, hs2.trans hr2, hr3⟩

end Rhythm

/-! ### Claims C2, C3, C4 -/

/-- Claim C2, counterexample: on the input with no sleep, task or activity
data and two late attendance records, the attendance sub-score is exactly 0
yet the composite rhythm score is 50, not 0: a zero sub-score is skipped by
the harmonic mean, it does not dominate it. -/
theorem c2_zero_subscore_counterexample :
    Rhythm.calculateAttendanceConsistency [⟨false⟩, ⟨false⟩] = 0 ∧
    (Rhythm.computeRhythmScore [] [⟨false⟩, ⟨false⟩] [] []).components.attendance = 0 ∧
    (Rhythm.computeRhythmScore [] [⟨false⟩, ⟨false⟩] [] []).composite = 50 := by
  have hatt : Rhythm.calculateAttendanceConsistency [⟨false⟩, ⟨false⟩] = 0 := by
    norm_num [Rhythm.calculateAttendanceConsistency, Rhythm.streaks, Rhythm.streaksAux,
      Rhythm.logStreakSum, Rhythm.absenceIdxs, Rhythm.gapsOf, List.enum, List.enumFrom,
      List.filterMap_cons, List.tail_cons, List.zip, List.zipWith, Real.sqrt_zero]
  have hsleep : Rhythm.calculateSleepConsistency [] = 1/2 := by
    norm_num [Rhythm.calculateSleepConsistency]
  have htask : Rhythm.calculateTaskCompletionConsistency [] = 1/2 := by
    norm_num [Rhythm.calculateTaskCompletionConsistency]
  have hcirc : Rhythm.calculateCircadianAlignment [] = 1/2 := by
    norm_num [Rhythm.calculateCircadianAlignment]
  refine ⟨hatt, ?_, ?_⟩ <;>
    norm_num [Rhythm.computeRhythmScore, hatt, hsleep, htask, hcirc, Rhythm.harmonicFold,
      Rhythm.harmonicStep, Rhythm.wSleep, Rhythm.wAttendance, Rhythm.wTask, Rhythm.wCircadian]

/-- Claim C2 (amended): a zero sub-score does not zero the composite — the
harmonic mean is taken only over the sub-scores that are strictly positive,
and since the sleep sub-score is always positive the composite rhythm score
is strictly positive on every input. -/
theorem c2_composite_positive_amended (sleepData : List Rhythm.SleepRec)
    (attendanceData : List Rhythm.AttRec) (taskData : List Rhythm.TaskRec)
    (activityData : List Rhythm.ActRec) :
    0 < (Rhythm.computeRhythmScore sleepData attendanceData taskData activityData).composite := by
  have hc1 := Rhythm.calculateSleepConsistency_pos sleepData
  have hws : (0:ℝ) < (Rhythm.wSleep : ℝ) := by norm_num [Rhythm.wSleep]
  simp only [Rhythm.computeRhythmScore, Rhythm.harmonicFold]
  have hfirst : Rhythm.harmonicStep (0, 0)
      ((Rhythm.wSleep : ℝ), Rhythm.calculateSleepConsistency sleepData)
      = ((Rhythm.wSleep : ℝ) / Rhythm.calculateSleepConsistency sleepData, (Rhythm.wSleep : ℝ)) := by
    simp [Rhythm.harmonicStep, if_pos hc1]
  rw [List.foldl_cons, hfirst]
  have hinv := Rhythm.harmonicFold_aux
    [((Rhythm.wAttendance : ℝ), Rhythm.calculateAttendanceConsistency attendanceData),
     ((Rhythm.wTask : ℝ), Rhythm.calculateTaskCompletionConsistency taskData),
     ((Rhythm.wCircadian : ℝ), ((Rhythm.calculateCircadianAlignment activityData : ℚ) : ℝ))]
    ((Rhythm.wSleep : ℝ) / Rhythm.calculateSleepConsistency sleepData, (Rhythm.wSleep : ℝ))
    (div_pos hws hc1).le hws.le (fun _ => div_pos hws hc1)
    (by
      intro p hp
      simp only [List.mem_cons] at hp
      rcases hp with rfl | rfl | rfl | h
      · norm_num [Rhythm.wAttendance]
      · norm_num [Rhythm.wTask]
      · norm_num [Rhythm.wCircadian]
      · simp at h)
  obtain ⟨hhs, hwsum, himp⟩ := hinv
  have hwpos : 0 < (List.foldl Rhythm.harmonicStep
      ((Rhythm.wSleep : ℝ) / Rhythm.calculateSleepConsistency sleepData, (Rhythm.wSleep : ℝ))
      [((Rhythm.wAttendance : ℝ), Rhythm.calculateAttendanceConsistency attendanceData),
       ((Rhythm.wTask : ℝ), Rhythm.calculateTaskCompletionConsistency taskData),
       ((Rhythm.wCircadian : ℝ), ((Rhythm.calculateCircadianAlignment activityData : ℚ) : ℝ))]).2 :=
    lt_of_lt_of_le hws hwsum
  have hhpos := himp hwpos
  simp only [if_pos hwpos]
  exact lt_min_iff.mpr ⟨by norm_num,
    lt_max_iff.mpr (Or.inr (mul_pos (div_pos hwpos hhpos) (by norm_num)))⟩

/-- Claim C3 (code bug): the late-night window loop `for (hour = 23;
hour <= 5; hour++)` never iterates, so the −0.5 late-night weight is dead
code; activity concentrated at hour 23 (or hour 2) leaves the circadian
sub-score at the 0.5 base instead of lowering it to 0. -/
theorem c3_late_night_window_dead :
    (∀ activityData : List Rhythm.ActRec, Rhythm.windowActivity activityData 23 5 = 0) ∧
    Rhythm.calculateCircadianAlignment [⟨23⟩] = 1/2 ∧
    Rhythm.calculateCircadianAlignment [⟨2⟩] = 1/2 := by
  refine ⟨fun activityData => rfl, ?_, ?_⟩ <;>
    norm_num [Rhythm.calculateCircadianAlignment, Rhythm.windowActivity, Rhythm.hourProb,
      Rhythm.hourCount, Rhythm.totalCount, Rhythm.getHours, List.range_succ]

/-- Claim C4, counterexample: the sequences `[T,T,F,F]` (one streak of 2)
and `[T,F,T,F]` (two streaks of 1) have the same length and the same
on-time count, and all other attendance terms are equal, yet the less
fragmented sequence scores strictly lower: `log 3 < log 2 + log 2`. -/
theorem c4_streak_merge_counterexample :
    Rhythm.calculateAttendanceConsistency [⟨true⟩, ⟨true⟩, ⟨false⟩, ⟨false⟩] <
      Rhythm.calculateAttendanceConsistency [⟨true⟩, ⟨false⟩, ⟨true⟩, ⟨false⟩] := by
  have hL : Rhythm.calculateAttendanceConsistency [⟨true⟩, ⟨true⟩, ⟨false⟩, ⟨false⟩]
      = min 1 (1/2 + (2/10) * (Real.log 3 / 4)) := by
    norm_num [Rhythm.calculateAttendanceConsistency, Rhythm.streaks, Rhythm.streaksAux,
      Rhythm.logStreakSum, Rhythm.absenceIdxs, Rhythm.gapsOf, List.enum, List.enumFrom,
      List.filterMap_cons, List.tail_cons, List.zip, List.zipWith, Real.sqrt_zero]
  have hR : Rhythm.calculateAttendanceConsistency [⟨true⟩, ⟨false⟩, ⟨true⟩, ⟨false⟩]
      = min 1 (1/2 + (2/10) * ((Real.log 2 + Real.log 2) / 4)) := by
    norm_num [Rhythm.calculateAttendanceConsistency, Rhythm.streaks, Rhythm.streaksAux,
      Rhythm.logStreakSum, Rhythm.absenceIdxs, Rhythm.gapsOf, List.enum, List.enumFrom,
      List.filterMap_cons, List.tail_cons, List.zip, List.zipWith, Real.sqrt_zero]
  have hlog3 : Real.log 3 ≤ 2 := by
    have := Real.log_le_sub_one_of_pos (show (0:ℝ) < 3 by norm_num)
    linarith
  have hlog2 : Real.log 2 ≤ 1 := by
    have := Real.log_le_sub_one_of_pos (show (0:ℝ) < 2 by norm_num)
    linarith
  have hlt : Real.log 3 < Real.log 2 + Real.log 2 := by
    have h4 : Real.log 3 < Real.log 4 := Real.log_lt_log (by norm_num) (by norm_num)
    have h22 : Real.log 4 = Real.log 2 + Real.log 2 := by
      rw [← Real.log_mul (by norm_num) (by norm_num)]
      norm_num
    linarith
  rw [hL, hR, min_eq_right (by linarith), min_eq_right (by linarith)]
  linarith

/-- Claim C4 (amended): the inequality runs the other way — for attendance
sequences of equal length whose streak lists differ by merging two streaks
`a` and `b` into one streak `a+b`, the streak bonus `Σ ln(1+s)/total` of the
less fragmented sequence is never higher than that of the more fragmented
one (`ln(1+a+b) ≤ ln(1+a) + ln(1+b)`). -/
theorem c4_streak_merge_amended (l₁ l₂ : List Rhythm.AttRec) (s t : List ℕ) (a b : ℕ)
    (hlen : l₁.length = l₂.length)
    (h₁ : Rhythm.streaks l₁ = s ++ a :: b :: t)
    (h₂ : Rhythm.streaks l₂ = s ++ (a + b) :: t) :
    Rhythm.logStreakSum (Rhythm.streaks l₂) / l₂.length ≤
      Rhythm.logStreakSum (Rhythm.streaks l₁) / l₁.length := by
  have hmerge : Real.log (1 + ((a + b : ℕ) : ℝ)) ≤
      Real.log (1 + (a : ℝ)) + Real.log (1 + (b : ℝ)) := by
    have ha : (0:ℝ) < 1 + (a : ℝ) := by positivity
    have hb : (0:ℝ) < 1 + (b : ℝ) := by positivity
    rw [← Real.log_mul (ne_of_gt ha) (ne_of_gt hb)]
    apply Real.log_le_log (by positivity)
    have hab : (0:ℝ) ≤ (a : ℝ) * (b : ℝ) := by positivity
    push_cast
    nlinarith
  have hsum : Rhythm.logStreakSum (Rhythm.streaks l₂) ≤ Rhythm.logStreakSum (Rhythm.streaks l₁) := by
    rw [h₁, h₂, Rhythm.logStreakSum, Rhythm.logStreakSum, List.map_append, List.map_append,
      List.sum_append, List.sum_append, List.map_cons, List.map_cons, List.map_cons,
      List.sum_cons, List.sum_cons, List.sum_cons]
    have := hmerge
    linarith
  have hne : l₂ ≠ [] := by
    intro hnil
    rw [hnil] at h₂
    have : Rhythm.streaks ([] : List Rhythm.AttRec) = [] := rfl
    rw [this] at h₂
    exact absurd h₂.symm (List.append_ne_nil_of_right_ne_nil s (by simp))
  have hpos : (0:ℝ) < (l₂.length : ℝ) := by
    have := List.length_pos.mpr hne
    exact_mod_cast this
  rw [hlen]
  exact div_le_div_of_nonneg_right hsum hpos.le

/-- Witness for C4 (amended) at the concrete pair `[T,F,T,F]` (streaks
`[1,1]`) and `[T,T,F,F]` (streak `[2]`). -/
theorem c4_streak_merge_witness :
    ([⟨true⟩, ⟨false⟩, ⟨true⟩, ⟨false⟩] : List Rhythm.AttRec).length =
      ([⟨true⟩, ⟨true⟩, ⟨false⟩, ⟨false⟩] : List Rhythm.AttRec).length ∧
    Rhythm.streaks [⟨true⟩, ⟨false⟩, ⟨true⟩, ⟨false⟩] = [] ++ 1 :: 1 :: [] ∧
    Rhythm.streaks [⟨true⟩, ⟨true⟩, ⟨false⟩, ⟨false⟩] = [] ++ (1 + 1) :: [] ∧
    Rhythm.logStreakSum (Rhythm.streaks [⟨true⟩, ⟨true⟩, ⟨false⟩, ⟨false⟩]) /
        ([⟨true⟩, ⟨true⟩, ⟨false⟩, ⟨false⟩] : List Rhythm.AttRec).length ≤
      Rhythm.logStreakSum (Rhythm.streaks [⟨true⟩, ⟨false⟩, ⟨true⟩, ⟨false⟩]) /
        ([⟨true⟩, ⟨false⟩, ⟨true⟩, ⟨false⟩] : List Rhythm.AttRec).length :=
  ⟨rfl, rfl, rfl,
    c4_streak_merge_amended [⟨true⟩, ⟨false⟩, ⟨true⟩, ⟨false⟩]
      [⟨true⟩, ⟨true⟩, ⟨false⟩, ⟨false⟩] [] [] 1 1 rfl rfl rfl⟩

/-! ### Claims C9, C10 -/

/-- Claim C9: a null or dangling `goalId` yields goal score exactly 30 (and
no error — the scorer is total); a resolving reference yields
`100·exp(-0.05·max(daysUntilDeadline, 0))` with a deadline and 50 without;
and the migration copy of the scorer computes the identical function. -/
theorem c9_goal_score_cases :
    (∀ (t : TaskManager.Task) (goals : List TaskManager.Goal) (now : ℚ),
       t.goalId = none → TaskManager.calculateGoalScore t goals now = 30) ∧
    (∀ (t : TaskManager.Task) (gid : ℕ) (goals : List TaskManager.Goal) (now : ℚ),
       t.goalId = some gid → goals.find? (fun g => g.id == gid) = none →
       TaskManager.calculateGoalScore t goals now = 30) ∧
    (∀ (t : TaskManager.Task) (gid : ℕ) (goals : List TaskManager.Goal) (now : ℚ)
       (g : TaskManager.Goal) (dl : ℚ),
       t.goalId = some gid → goals.find? (fun g => g.id == gid) = some g →
       g.deadline = some dl →
       TaskManager.calculateGoalScore t goals now =
         100 * Real.exp (-(5/100) * max ((dl : ℝ) - (now : ℝ)) 0)) ∧
    (∀ (t : TaskManager.Task) (gid : ℕ) (goals : List TaskManager.Goal) (now : ℚ)
       (g : TaskManager.Goal),
       t.goalId = some gid → goals.find? (fun g => g.id == gid) = some g →
       g.deadline = none →
       TaskManager.calculateGoalScore t goals now = 50) ∧
    (∀ (t : Park.Task) (goals : List TaskManager.Goal) (now : ℚ),
       Park.calculateGoalScore t goals now =
         TaskManager.calculateGoalScore
           ⟨t.priority, t.date, t.duration, t.category, t.goalId, t.completed⟩ goals now) := by
  refine ⟨?_, ?_, ?_, ?_, ?_⟩
  · intro t goals now h
    simp [TaskManager.calculateGoalScore, h]
  · intro t gid goals now h hfind
    simp [TaskManager.calculateGoalScore, h, hfind]
  · intro t gid goals now g dl h hfind hdl
    simp [TaskManager.calculateGoalScore, h, hfind, TaskManager.calculateGoalUrgency, hdl]
    ring
  · intro t gid goals now g h hfind hdl
    simp [TaskManager.calculateGoalScore, h, hfind, TaskManager.calculateGoalUrgency, hdl]
    norm_num
  · intro t goals now
    rfl

/-- Witness for C9 at a concrete dangling reference: `goalId = 1` with the
goal collection holding only goal 2 scores exactly 30. -/
theorem c9_goal_score_witness :
    (⟨.high, 0, 90, .work, some 1, true⟩ : TaskManager.Task).goalId = some 1 ∧
    ([⟨2, none⟩] : List TaskManager.Goal).find? (fun g => g.id == 1) = none ∧
    TaskManager.calculateGoalScore ⟨.high, 0, 90, .work, some 1, true⟩ [⟨2, none⟩] 0 = 30 :=
  ⟨rfl, rfl, c9_goal_score_cases.2.1 ⟨.high, 0, 90, .work, some 1, true⟩ 1 [⟨2, none⟩] 0 rfl rfl⟩

/-- Claim C10: the migration per-task rhythm convenience score is bounded in
`[50, 100]` for every task: base 50 plus only non-negative bonuses, clamped
above at 100. -/
theorem c10_rhythm_score_range (t : Park.Task) :
    50 ≤ Park.calculateRhythmScore t ∧ Park.calculateRhythmScore t ≤ 100 := by
  obtain ⟨_, _, _, _, _, co, re, cot, pst, ast⟩ := t
  simp only [Park.calculateRhythmScore]
  rcases ast with _ | a <;> rcases pst with _ | p <;> rcases cot <;> rcases re <;> rcases co <;>
    dsimp only <;> split_ifs <;> exact ⟨by norm_num, by norm_num⟩

/-! ### Claims C1, C5 -/

theorem exp_neg_point3_bounds :
    (74081/100000 : ℝ) ≤ Real.exp (-(3/10)) ∧ Real.exp (-(3/10)) ≤ (74083/100000 : ℝ) := by
  have h := @Real.exp_bound (-(3/10 : ℝ)) (by rw [abs_neg, abs_of_nonneg] <;> norm_num) 6
    (by norm_num)
  rw [show |(-(3/10):ℝ)| = 3/10 by rw [abs_neg, abs_of_nonneg] ; norm_num] at h
  norm_num [Finset.sum_range_succ, Nat.factorial] at h
  rw [abs_le] at h
  constructor <;> linarith [h.1, h.2]

theorem exp_neg_half_bounds :
    (60648/100000 : ℝ) ≤ Real.exp (-(1/2)) ∧ Real.exp (-(1/2)) ≤ (60654/100000 : ℝ) := by
  have h := @Real.exp_bound (-(1/2 : ℝ)) (by rw [abs_neg, abs_of_nonneg] <;> norm_num) 6
    (by norm_num)
  rw [show |(-(1/2):ℝ)| = 1/2 by rw [abs_neg, abs_of_nonneg] ; norm_num] at h
  norm_num [Finset.sum_range_succ, Nat.factorial] at h
  rw [abs_le] at h
  constructor <;> linarith [h.1, h.2]

/-- Claim C1: for the fixture day of one high-priority, 90-minute, completed,
work-category task linked to a goal due in 10 days, the per-task scorers give
E = 75, D = 100·exp(-0.3) ≈ 74.08, Q = 90, G = 100·exp(-0.5) ≈ 60.65, and the
day aggregator averages each component then applies the equal 0.25 weights,
giving composite (E+D+Q+G)/4 ≈ 74.93 (each ≈ within 0.005, i.e. the quoted
two-decimal roundings). -/
theorem c1_round_trip_fixture :
    TaskManager.calculateDailyProductivity
        [⟨.high, 5, 90, .work, some 1, true⟩] [⟨1, some 10⟩] 0 5 =
      some ⟨75, 100 * Real.exp (-(3/10)), 90, 100 * Real.exp (-(1/2)),
        (75 + 100 * Real.exp (-(3/10)) + 90 + 100 * Real.exp (-(1/2))) / 4, 1⟩ ∧
    |100 * Real.exp (-(3/10)) - 7408/100| < 5/1000 ∧
    |100 * Real.exp (-(1/2)) - 6065/100| < 5/1000 ∧
    |(75 + 100 * Real.exp (-(3/10)) + 90 + 100 * Real.exp (-(1/2))) / 4 - 7493/100| < 5/1000 := by
  obtain ⟨h3lo, h3hi⟩ := exp_neg_point3_bounds
  obtain ⟨h5lo, h5hi⟩ := exp_neg_half_bounds
  refine ⟨?_, ?_, ?_, ?_⟩
  · have hdur : Real.exp (-(1/100) * ((90:ℝ) - 60)) = Real.exp (-(3/10)) := by norm_num
    have hgoal : Real.exp (-(5/100) * max ((10:ℝ) - 0) 0) = Real.exp (-(1/2)) := by
      rw [show max ((10:ℝ) - 0) 0 = 10 by norm_num]
      norm_num
    simp only [TaskManager.calculateDailyProductivity, TaskManager.componentsOfTasks,
      TaskManager.getProductivityComponents, TaskManager.calculateEffortScore,
      TaskManager.calculateDurationScore, TaskManager.calculateQualityScore,
      TaskManager.calculateGoalScore, TaskManager.calculateGoalUrgency,
      TaskManager.priorityWeights, TaskManager.categoryWeights, List.filter]
    norm_num [hdur, hgoal]
    exact ⟨by ring, by ring, by ring⟩
  · rw [abs_lt]
    constructor <;> linarith
  · rw [abs_lt]
    constructor <;> linarith
  · rw [abs_lt]
    constructor <;> linarith

/-- Claim C5, counterexample: the task-manager effort scorer does not clamp:
a high-priority task with duration −120 minutes scores −100, outside
`[0,100]` (and an out-of-enumeration priority yields NaN, not a number in
range). -/
theorem c5_no_clamp_counterexample :
    TaskManager.calculateEffortScore ⟨.high, 0, -120, .work, none, false⟩ = some (-100) ∧
    ¬ (0 ≤ (-100 : ℝ)) := by
  constructor
  · simp only [TaskManager.calculateEffortScore, TaskManager.priorityWeights, Option.map]
    norm_num
  · norm_num

/-- Claim C5 (amended): the robust `computeComponents` scorer does clamp
every component into `[0,100]` for every task and options input; the legacy
task-manager per-task scorers perform no such clamping. -/
theorem c5_components_clamped_amended (task : P3.P3Task) (options : P3.P3Options) :
    (0 ≤ (P3.computeComponents task options).effort ∧
      (P3.computeComponents task options).effort ≤ 100) ∧
    (0 ≤ (P3.computeComponents task options).duration ∧
      (P3.computeComponents task options).duration ≤ 100) ∧
    (0 ≤ (P3.computeComponents task options).quality ∧
      (P3.computeComponents task options).quality ≤ 100) ∧
    (0 ≤ (P3.computeComponents task options).goal ∧
      (P3.computeComponents task options).goal ≤ 100) := by
  have hb : ∀ x : ℝ, 0 ≤ P3.clampR x 0 100 ∧ P3.clampR x 0 100 ≤ 100 := by
    intro x
    unfold P3.clampR
    exact ⟨le_min (by norm_num) (le_max_left 0 x), min_le_left _ _⟩
  simp only [P3.computeComponents]
  exact ⟨hb _, hb _, hb _, hb _⟩
